import Mathlib

set_option maxRecDepth 100000

/-!
Verification of the notebook/RAG orchestration layer of `py_backend/main.py`.

The Python functions are shallowly embedded as executable Lean definitions:

* Python strings are `List Char` (`Text`); slicing `t[j:j+w]` is
  `(t.drop j).take w`, and `range(start, stop, step)` is `pyRange`.
* Embedding vectors are `List Rat` (`Vec`); `np.mean(a, axis=0)` is `meanVecs`.
* Exceptions are `Except` errors.  The code classifies exceptions only by
  substring tests on their lowered message (`'too large'`, `'batch size'`,
  `'input is too large'` for embedding; `'context size'`, `'context length'`,
  `'token limit'`, `'exceeds'`, `'too long'` for queries), so an error is
  embedded as a constructor recording which class its message belongs to.
* The network embedder (`embed_func`) and the RAG engine (`rag.aquery`) are
  external collaborators and appear as function parameters.
-/

/-- Python `str`, viewed as its list of characters. -/
abbrev Text := List Char

/-- An embedding vector (a Python list of floats, modelled exactly over `ℚ`). -/
abbrev Vec := List ℚ

/-- Errors raised by an embedding call, classified the way
`batch_embed_texts` classifies them: by whether the lowered message contains
one of the keywords `'too large'`, `'batch size'`, `'input is too large'`.

`chunkFail e` is the exception
`"Text cannot be embedded even after chunking: {e}"` (main.py:939) and
`singleFail e` is `"Text too large for embedding (batch size 1 failed): {e}"`
(main.py:945); both embed the inner message in their own.  `invalidStep` is
the `ValueError` Python raises for `range(0, n, 0)`. -/
inductive EmbError where
  | tooLarge : EmbError
  | otherErr : EmbError
  | chunkFail : EmbError → EmbError
  | singleFail : EmbError → EmbError
  | invalidStep : EmbError
deriving Repr, DecidableEq

/-- Whether an error's message contains one of the batch-size keywords
checked at main.py:916-917.  `singleFail` messages contain the literal words
"too large"; `chunkFail` messages contain the inner message verbatim. -/
def isTooLargeError : EmbError → Bool
  | .tooLarge => true
  | .otherErr => false
  | .chunkFail e => isTooLargeError e
  | .singleFail _ => true
  | .invalidStep => false

/-- The external embedding backend: one network call on a list of texts,
returning one vector per text on success (`embed_func` in main.py). -/
abbrev EmbFun := List Text → Except EmbError (List Vec)

/-- Iteration core of Python `range(cur, stop, step)` for positive `step`:
yield `cur` and advance by `step` while `cur < stop`.  The recursion is made
structural on `fuel`; since each iteration raises `cur` by `step ≥ 1`, any
`fuel ≥ stop - cur` is enough and the exhaustion branch is never reached
from `pyRange` below. -/
def pyRangeAux (stop step : Nat) : Nat → Nat → List Nat
  | 0, _ => []
  | fuel + 1, cur => if cur < stop then cur :: pyRangeAux stop step fuel (cur + step) else []

/-- Python `range(cur, stop, step)` with a positive step, as the list of
indices it yields (empty for step 0, where Python raises `ValueError`;
callers gate that case). -/
def pyRange (stop step cur : Nat) : List Nat :=
  if step = 0 then [] else pyRangeAux stop step (stop - cur) cur

/-- The window list `[t[j:j+w] for j in range(0, len(t), step)]` used by the
re-chunking fallbacks (main.py:928 with `w = 200, step = 180`, and
main.py:1033 with `w = 400, step = 350`). -/
def sliceChunks (t : Text) (w step : Nat) : List Text :=
  (pyRange t.length step 0).map (fun j => (t.drop j).take w)

/-- The consecutive batches `texts[i:i+batch_size]` for
`i in range(0, len(texts), batch_size)` (main.py:895-896). -/
def toBatches (texts : List Text) (bs : Nat) : List (List Text) :=
  (pyRange texts.length bs 0).map (fun i => (texts.drop i).take bs)

/-- Element-wise sum of two vectors (rows of equal length in the code). -/
def vecAdd (v w : Vec) : Vec := List.zipWith (· + ·) v w

/-- The aggregation `np.mean(np.array(vs), axis=0).tolist()` of main.py:1041-1042:
element-wise mean of a non-empty rectangular list of vectors. -/
def meanVecs : List Vec → Vec
  | [] => []
  | v :: vs => (vs.foldl vecAdd v).map (fun x => x / ((vs.length + 1 : ℕ) : ℚ))

/-- The inner loop of main.py:932-939: embed each 200-char window of an
oversized single text individually via `embed_func([chunk])`, concatenating
the returned vectors; a failing window aborts with the wrapped
"cannot be embedded even after chunking" exception. -/
def embedChunksLoop (embedFunc : EmbFun) : List Text → Except EmbError (List Vec)
  | [] => .ok []
  | c :: rest =>
    match embedFunc [c] with
    | .ok vs =>
      match embedChunksLoop embedFunc rest with
      | .ok more => .ok (vs ++ more)
      | .error e => .error e
    | .error e => .error (.chunkFail e)

/-- Outcome of the batch loop of `batch_embed_texts` (main.py:895-949):
either all batches embedded (`done`), or a too-large failure with
`batch_size > 1` requested a restart at half the batch size (`halve`,
main.py:918-921), or an exception propagates (`failed`). -/
inductive BatchStep where
  | done : List Vec → BatchStep
  | halve : BatchStep
  | failed : EmbError → BatchStep
deriving Repr

/-- The `for i in range(0, len(texts), batch_size)` loop body of
`batch_embed_texts` (main.py:895-949), processing the list of batches in
order.  On a too-large error: with `batch_size > 1` it requests halving; with
`batch_size == 1` and a single text longer than 200 characters it re-chunks
that text into 200-char windows with 20-char overlap (stride 180), appends
each window's vectors to the output (main.py:941, note: no averaging), and
continues with the remaining batches; otherwise the wrapped error is raised.
Non-too-large errors are re-raised (main.py:948). -/
def runBatches (embedFunc : EmbFun) (bs : Nat) : List (List Text) → BatchStep
  | [] => .done []
  | b :: rest =>
    match embedFunc b with
    | .ok vs =>
      match runBatches embedFunc bs rest with
      | .done more => .done (vs ++ more)
      | .halve => .halve
      | .failed e => .failed e
    | .error e =>
      if isTooLargeError e then
        if 1 < bs then .halve
        else
          match b with
          | [t] =>
            if 200 < t.length then
              match embedChunksLoop embedFunc (sliceChunks t 200 180) with
              | .ok cvs =>
                match runBatches embedFunc bs rest with
                | .done more => .done (cvs ++ more)
                | .halve => .halve
                | .failed e2 => .failed e2
              | .error e2 => .failed e2
            else .failed (.singleFail e)
          | _ => .failed (.singleFail e)
      else .failed e

/-- One level of `batch_embed_texts(texts, batch_size, embed_func)`
(main.py:887-950).  If `len(texts) <= batch_size` the provider is called
once directly with no surrounding handler (main.py:889-890); `batch_size ==
0` with a longer text list is Python's `ValueError` for a zero `range`
step; otherwise the batch loop runs.  `inl r` is a final result; `inr bs'`
is the recursive re-invocation on the same `texts` with the halved batch
size `batch_size // 2` requested at main.py:921. -/
def batchEmbedStep (embedFunc : EmbFun) (texts : List Text) (batchSize : Nat) :
    Sum (Except EmbError (List Vec)) Nat :=
  if texts.length ≤ batchSize then .inl (embedFunc texts)
  else if batchSize = 0 then .inl (.error .invalidStep)
  else
    match runBatches embedFunc batchSize (toBatches texts batchSize) with
    | .done vs => .inl (.ok vs)
    | .halve => .inr (batchSize / 2)
    | .failed e => .inl (.error e)

/-- Driver of the halving recursion of `batch_embed_texts`, made structural
on a fuel.  The fuel never runs out when it starts at `batchSize`: a
halving step requires `1 < batchSize`, and `fuel ≥ batchSize` is preserved
(`fuel - 1 ≥ batchSize - 1 ≥ batchSize / 2`), so the exhaustion branch is
unreachable (`batchEmbedTextsFuel_congr` below makes this precise). -/
def batchEmbedTextsFuel (embedFunc : EmbFun) (texts : List Text) :
    Nat → Nat → Except EmbError (List Vec)
  | 0, batchSize =>
    match batchEmbedStep embedFunc texts batchSize with
    | .inl r => r
    | .inr _ => .error .invalidStep
  | fuel + 1, batchSize =>
    match batchEmbedStep embedFunc texts batchSize with
    | .inl r => r
    | .inr bs' => batchEmbedTextsFuel embedFunc texts fuel bs'

/-- `batch_embed_texts(texts, batch_size, embed_func)` (main.py:887-950). -/
def batchEmbedTexts (embedFunc : EmbFun) (texts : List Text) (batchSize : Nat) :
    Except EmbError (List Vec) :=
  batchEmbedTextsFuel embedFunc texts batchSize batchSize

/-- Instrumentation of `batchEmbedTexts`: the sequence of `batch_size`
arguments of the successive (re-)invocations of `batch_embed_texts`,
mirroring its recursion exactly (same step function and fuel discipline). -/
def batchEmbedSizesFuel (embedFunc : EmbFun) (texts : List Text) :
    Nat → Nat → List Nat
  | 0, batchSize => [batchSize]
  | fuel + 1, batchSize =>
    match batchEmbedStep embedFunc texts batchSize with
    | .inl _ => [batchSize]
    | .inr bs' => batchSize :: batchEmbedSizesFuel embedFunc texts fuel bs'

/-- The batch sizes at which `batch_embed_texts` is invoked, starting from
the given initial `batchSize`. -/
def batchEmbedSizes (embedFunc : EmbFun) (texts : List Text) (batchSize : Nat) :
    List Nat :=
  batchEmbedSizesFuel embedFunc texts batchSize batchSize

/-- The OpenAI embedding wrapper (main.py:961-964):
`batch_size = 16 if len(texts) > 16 else len(texts)`, then
`batch_embed_texts`. -/
def embeddingFuncLambdaOpenAI (base : EmbFun) (texts : List Text) :
    Except EmbError (List Vec) :=
  batchEmbedTexts base texts (if 16 < texts.length then 16 else texts.length)

/-- The Ollama embedding wrapper (main.py:1064-1067):
`batch_size = 4 if len(texts) > 4 else len(texts)`, then
`batch_embed_texts`. -/
def embeddingFuncLambdaOllama (base : EmbFun) (texts : List Text) :
    Except EmbError (List Vec) :=
  batchEmbedTexts base texts (if 4 < texts.length then 4 else texts.length)

/-- The per-text Clara-Core step of `embedding_func_lambda`
(main.py:1030-1048): a text longer than 400 characters is split into
400-char windows with 50-char overlap (stride 350), the windows are embedded
through `batch_embed_texts(chunks, 1, base)`, and the window vectors are
aggregated into one vector by element-wise averaging; a text of at most 400
characters is embedded via `batch_embed_texts([text], 1, base)` and its
result list is appended as-is. -/
def claraCoreEmbedText (base : EmbFun) (t : Text) : Except EmbError (List Vec) :=
  if 400 < t.length then
    match batchEmbedTexts base (sliceChunks t 400 350) 1 with
    | .ok chunkEmbeds => .ok [meanVecs chunkEmbeds]
    | .error e => .error e
  else
    batchEmbedTexts base [t] 1

/-- The Clara-Core branch of `embedding_func_lambda` (main.py:1026-1050):
process each input text in order with `claraCoreEmbedText`, concatenating
the per-text results into `final_embeddings`. -/
def embeddingFuncLambdaClara (base : EmbFun) : List Text → Except EmbError (List Vec)
  | [] => .ok []
  | t :: rest =>
    match claraCoreEmbedText base t with
    | .ok vs =>
      match embeddingFuncLambdaClara base rest with
      | .ok more => .ok (vs ++ more)
      | .error e => .error e
    | .error e => .error e

/-- Query modes accepted by `/notebooks/{id}/query` (main.py:1366). -/
inductive QMode where
  | naiveQ : QMode
  | localQ : QMode
  | globalQ : QMode
  | hybridQ : QMode
  | mixQ : QMode
deriving Repr, DecidableEq

/-- The `QueryParam` triple passed to `rag.aquery` (main.py:1892-1896):
mode, response type, and top-k. -/
structure QueryParam where
  mode : QMode
  responseType : String
  topK : Nat
deriving Repr, DecidableEq

/-- Errors raised by `rag.aquery`, classified the way `query_notebook`
classifies them (main.py:1905): by whether the lowered message contains one
of `'context size'`, `'context length'`, `'token limit'`, `'exceeds'`,
`'too long'`. -/
inductive QueryError where
  | contextSize : QueryError
  | otherQErr : QueryError
deriving Repr, DecidableEq

/-- Whether a query error belongs to the context-size class of main.py:1905. -/
def isContextSizeError : QueryError → Bool
  | .contextSize => true
  | .otherQErr => false

/-- The external RAG engine for a fixed question: `rag.aquery(question, param)`. -/
abbrev QueryEngine := QueryParam → Except QueryError String

/-- The single fallback parameter set chosen after a context-size error
(main.py:1909-1936): `global → local` with `top_k = min(20, top_k)`,
`hybrid → naive` with `top_k = min(15, top_k)`, any other mode → `naive`
with response type "Single Paragraph" and `top_k = 5`. -/
def fallbackParam (p : QueryParam) : QueryParam :=
  match p.mode with
  | .globalQ => ⟨.localQ, p.responseType, min 20 p.topK⟩
  | .hybridQ => ⟨.naiveQ, p.responseType, min 15 p.topK⟩
  | _ => ⟨.naiveQ, "Single Paragraph", 5⟩

/-- The query-with-fallback block of `query_notebook` (main.py:1899-1939),
starting from the already-adjusted mode/top-k.  The first engine call is
tried; on a context-size-class error exactly one fallback call is made with
`fallbackParam`, and its outcome — success or ANY error — is final (the
fallback call sits in no handler of its own; a non-context-size first error
is re-raised).  The returned pair carries the answer and the
`adjusted_mode` reported in the response. -/
def queryWithFallback (engine : QueryEngine) (p : QueryParam) :
    Except QueryError (String × QMode) :=
  match engine p with
  | .ok r => .ok (r, p.mode)
  | .error e =>
    if isContextSizeError e then
      match engine (fallbackParam p) with
      | .ok r => .ok (r, (fallbackParam p).mode)
      | .error e2 => .error e2
    else .error e

/-- The parameter sets with which `query_notebook` actually invokes
`rag.aquery`, in order (main.py:1899-1939). -/
def queryAttempts (engine : QueryEngine) (p : QueryParam) : List QueryParam :=
  match engine p with
  | .ok _ => [p]
  | .error e => if isContextSizeError e then [p, fallbackParam p] else [p]

/-- Document lifecycle states (main.py:1621, 1276, 1323). -/
inductive DocStatus where
  | processing : DocStatus
  | completed : DocStatus
  | failed : DocStatus
deriving Repr, DecidableEq

/-- The fields of a document record that the retry endpoint and the failure
path of `process_notebook_document` read or write.  `content` is the stored
extracted text (`None` when absent), `contentFile` the text recovered from
the overflow backup file (`None` when the key is missing, the file is gone,
or reading fails — collapsed, since all three leave `text_content` unset),
and timestamps are abstract ticks. -/
structure DocRecord where
  status : DocStatus
  content : Option Text
  contentFile : Option Text
  error : Option String
  failedAt : Option Nat
  errorMessage : Option String
  errorDetails : Option String
  processedAt : Option Nat
deriving Repr, DecidableEq

/-- Python truthiness of an optional string: `None` and `""` are falsy. -/
def pyTruthyText : Option Text → Bool
  | none => false
  | some t => !t.isEmpty

/-- The failure path of `process_notebook_document` (main.py:1321-1327):
status becomes `failed`, the exception text is stored in the `error` field,
and `failed_at` is stamped. -/
def markDocumentFailed (d : DocRecord) (msg : String) (now : Nat) : DocRecord :=
  { d with status := .failed, error := some msg, failedAt := some now }

/-- Content lookup of the retry endpoint (main.py:1776-1789): the in-memory
`content` if truthy, else the overflow-file content when available. -/
def effectiveContent (d : DocRecord) : Option Text :=
  if pyTruthyText d.content then d.content
  else
    match d.contentFile with
    | some t => some t
    | none => d.content

/-- Outcome of a retry request: an HTTP 400, an HTTP 500, or success with
the `{status: "processing"}` response body (main.py:1763, 1799, 1830, 1845). -/
inductive RetryOutcome where
  | clientError : RetryOutcome
  | serverError : RetryOutcome
  | success : RetryOutcome
deriving Repr, DecidableEq

/-- The retry endpoint `retry_failed_document` (main.py:1748-1845), from the
status gate onward, paired with the final state of the document record.
`post` stands for the effects performed after the record is flipped to
`processing` (persisting the record and scheduling the background task,
main.py:1818-1827): if any of them raises, the handler at main.py:1839-1845
resets the status to `failed`, persists, and answers 500.  A non-`failed`
status, or unavailable content, is rejected with 400 before any mutation. -/
def retryFailedDocument (d : DocRecord) (now : Nat) (post : Except String Unit) :
    RetryOutcome × DocRecord :=
  if d.status ≠ .failed then (.clientError, d)
  else if pyTruthyText (effectiveContent d) then
    let d1 : DocRecord :=
      { d with status := .processing, processedAt := some now,
               failedAt := none, errorMessage := none, errorDetails := none }
    match post with
    | .ok _ => (.success, d1)
    | .error _ => (.serverError, { d1 with status := .failed })
  else (.clientError, d)

/-- A document record as the summary/fingerprint code sees it
(main.py:1991-2010): id, owning notebook, filename, upload timestamp
(already in its ISO string form), and status. -/
structure NbDoc where
  id : Text
  notebookId : Text
  filename : Text
  uploadedAt : Text
  status : DocStatus
deriving Repr, DecidableEq

/-- The completed documents of a notebook (main.py:1991-1994). -/
def completedDocs (nbId : Text) (docs : List NbDoc) : List NbDoc :=
  docs.filter (fun d => d.notebookId == nbId && d.status == .completed)

/-- The fingerprint entry `f"{doc['id']}:{doc['uploaded_at']}"` of
main.py:2008. -/
def fingerprintEntry (d : NbDoc) : Text :=
  d.id ++ ':' :: d.uploadedAt

/-- Lexicographic comparison of Python strings by code point, as `sorted`
uses (decidable and executable). -/
def lexLe : Text → Text → Bool
  | [], _ => true
  | _ :: _, [] => false
  | a :: as, b :: bs => if a < b then true else if b < a then false else lexLe as bs

/-- Propositional form of `lexLe`, the order `sorted` uses. -/
def lexLeProp (x y : Text) : Prop := lexLe x y = true

instance : DecidableRel lexLeProp :=
  fun x y => inferInstanceAs (Decidable (lexLe x y = true))

/-- Python `sorted` on a list of strings: the ascending reordering under
`lexLe` (realised as an insertion sort; the result is determined by the
order alone since `lexLe` is total, transitive and antisymmetric — proved
below — so any correct sort implements `sorted`). -/
def sortTexts (l : List Text) : List Text := List.insertionSort lexLeProp l

/-- Python `"|".join(entries)`. -/
def joinPipe : List Text → Text
  | [] => []
  | [t] => t
  | t :: rest => t ++ '|' :: joinPipe rest

/-- The corpus fingerprint of main.py:2007-2010: the sorted, "|"-joined
list of `"{id}:{uploadedAt}"` entries of the given documents. -/
def fingerprint (docs : List NbDoc) : Text :=
  joinPipe (sortTexts (docs.map fingerprintEntry))

/-- The cached summary stored on a notebook (main.py:2085-2090). -/
structure SummaryCache where
  answer : String
  mode : String
  contextUsed : Bool
  generatedAt : Nat
deriving Repr, DecidableEq

/-- The notebook fields `generate_notebook_summary` reads and writes
(main.py:2013-2015, 2093-2094). -/
structure Notebook where
  summaryCache : Option SummaryCache
  docsFingerprint : Option Text
deriving Repr, DecidableEq

/-- The response body of the summary endpoint (answer, mode, context flag;
citations are recomputed from the document set on every path and are not
part of the cache, main.py:2037-2044). -/
structure SummaryResponse where
  answer : String
  mode : String
  contextUsed : Bool
deriving Repr, DecidableEq

/-- The fixed "not ready" answer of main.py:1998. -/
def notReadyAnswer : String :=
  "No documents have been processed yet. Please upload and wait for documents to be processed before generating a summary."

/-- The cache validity check of main.py:2017-2019: a (Python-truthy) cached
summary dict and a (Python-truthy, hence non-empty) stored fingerprint
string equal to the recomputed one. -/
def summaryCacheHit (nb : Notebook) (fp : Text) : Option SummaryCache :=
  match nb.summaryCache, nb.docsFingerprint with
  | some c, some storedFp =>
    if !storedFp.isEmpty && storedFp == fp then some c else none
  | _, _ => none

/-- `generate_notebook_summary` (main.py:1983-2108) for one notebook.
`engineAnswer` is the value `rag.aquery` would return for the fixed summary
prompt, and `now` the current clock tick.  Returns the response, the updated
notebook record, and whether a summary query was issued.  With no completed
documents the fixed "not ready" response is returned and nothing is stored
(main.py:1996-2004); on a cache hit the cached answer/mode/context flag are
returned unchanged with no query (main.py:2017-2044); otherwise one query
is issued and `{answer, mode: "hybrid", context_used: True}` plus the
fingerprint are stored (main.py:2059-2108). -/
def generateNotebookSummary (nbId : Text) (docs : List NbDoc) (nb : Notebook)
    (engineAnswer : String) (now : Nat) : SummaryResponse × Notebook × Bool :=
  let nbDocs := completedDocs nbId docs
  if nbDocs.isEmpty then
    (⟨notReadyAnswer, "hybrid", false⟩, nb, false)
  else
    let fp := fingerprint nbDocs
    match summaryCacheHit nb fp with
    | some c => (⟨c.answer, c.mode, c.contextUsed⟩, nb, false)
    | none =>
      (⟨engineAnswer, "hybrid", true⟩,
       ⟨some ⟨engineAnswer, "hybrid", true, now⟩, some fp⟩, true)

/-- An uploaded file as `upload_notebook_documents` sees it: its filename
and the text the external extractor produced from it. -/
structure UploadFile where
  filename : Text
  content : Text
deriving Repr, DecidableEq

/-- Whether the upload loop accepts a file: a falsy filename is skipped
(main.py:1594-1595), as is a file whose extracted text is empty after
`strip()` (main.py:1608-1610). -/
def acceptedFile (f : UploadFile) : Bool :=
  !f.filename.isEmpty && f.content.any (fun c => !c.isWhitespace)

/-- The stagger delay `min(i * 3, 30)` of main.py:1651, `i` being the
0-based `enumerate` index of the file within the upload batch. -/
def staggerDelay (i : Nat) : Nat := min (i * 3) 30

/-- A document record as created by the upload loop (main.py:1616-1624)
together with the background-task delay scheduled for it (main.py:1651-1658). -/
structure UploadedDoc where
  uploadIndex : Nat
  filename : Text
  status : DocStatus
  delaySeconds : Nat
deriving Repr, DecidableEq

/-- The `for i, file in enumerate(files)` loop of
`upload_notebook_documents` (main.py:1593-1663): skipped files consume their
index; each accepted file yields a `processing` record scheduled with
`staggerDelay i`. -/
def uploadLoop : List UploadFile → Nat → List UploadedDoc
  | [], _ => []
  | f :: rest, i =>
    if acceptedFile f then
      ⟨i, f.filename, .processing, staggerDelay i⟩ :: uploadLoop rest (i + 1)
    else uploadLoop rest (i + 1)

/-- The running `document_count` update of the upload loop: one increment
per accepted file (main.py:1661). -/
def uploadDocumentCount : List UploadFile → Nat → Nat
  | [], count => count
  | f :: rest, count =>
    uploadDocumentCount rest (if acceptedFile f then count + 1 else count)

/-- Observable steps of the background wrapper
`process_notebook_document_with_delay` (main.py:1174-1179). -/
inductive IngestEvent where
  | sleepFor : Nat → IngestEvent
  | processDoc : IngestEvent
deriving Repr, DecidableEq

/-- The wrapper `process_notebook_document_with_delay` (main.py:1174-1179):
sleep for the stagger delay (when positive), then — and only then — run
`process_notebook_document`, which performs the embedding calls. -/
def processNotebookDocumentWithDelay (delaySeconds : Nat) : List IngestEvent :=
  (if 0 < delaySeconds then [IngestEvent.sleepFor delaySeconds] else []) ++
    [IngestEvent.processDoc]

/-- Example backend: rejects any batch containing a text longer than 200
characters with a too-large error, and otherwise returns the
one-dimensional vector `[len(t)]` for each text of the batch. -/
def exEmbBase : EmbFun := fun ts =>
  if ts.any (fun t => 200 < t.length) then .error .tooLarge
  else .ok (ts.map (fun t => [(t.length : ℚ)]))

/-- Example input batch: five texts, the first 250 characters long. -/
def exTexts1 : List Text :=
  [List.replicate 250 'a', ['b'], ['c'], ['d'], ['e']]

/-- Example backend that always succeeds, returning `[len(t)]` per text. -/
def exOkBase : EmbFun := fun ts => .ok (ts.map (fun t => [(t.length : ℚ)]))

/-- Two short texts for exercising the Clara-Core wrapper. -/
def exClaraTexts : List Text := [['h', 'i'], ['y', 'o']]

/-- The output of the Clara-Core wrapper on `exClaraTexts`. -/
def exClaraOut : List Vec :=
  (embeddingFuncLambdaClara exOkBase exClaraTexts).toOption.getD []

/-- Example engine: succeeds only in `naive` mode, raising a
context-size-class error in every other mode. -/
def exEngine : QueryEngine := fun p =>
  match p.mode with
  | .naiveQ => .ok "naive answer"
  | _ => .error .contextSize

/-- Example rectangular vector list for the aggregation dimension witness. -/
def exVs : List Vec := [[3, 5], [1, 7]]

/-- A freshly uploaded document record (status `processing`, content
stored, no error information). -/
def exBaseDoc : DocRecord :=
  ⟨.processing, some ['h', 'i'], none, none, none, none, none, none⟩

/-- The record after `process_notebook_document` failed at tick 5 with a
connection-timeout message (main.py:1321-1327). -/
def exFailedDoc : DocRecord :=
  markDocumentFailed exBaseDoc "Embedding failed: connection timeout" 5

/-- A completed document record. -/
def exCompletedDoc : DocRecord := { exBaseDoc with status := .completed }

/-- Example notebook id. -/
def exNbId : Text := ['n', 'b']

/-- A completed document of notebook `exNbId`. -/
def exDocA : NbDoc :=
  ⟨['d', '1'], ['n', 'b'], ['f', '1'], ['2', '0', '2', '5'], .completed⟩

/-- A second completed document of notebook `exNbId`. -/
def exDocB : NbDoc :=
  ⟨['d', '2'], ['n', 'b'], ['f', '2'], ['2', '0', '2', '6'], .completed⟩

/-- `exDocB` with its id changed. -/
def exDocB' : NbDoc := { exDocB with id := ['d', '3'] }

/-- The document list of the summary witness. -/
def exDocs : List NbDoc := [exDocA]

/-- A notebook with no cached summary. -/
def exNotebook : Notebook := ⟨none, none⟩

/-- Three accepted files uploaded together. -/
def exFiles : List UploadFile :=
  [⟨['a'], ['x']⟩, ⟨['b'], ['y']⟩, ⟨['c'], ['z']⟩]

/-- Direct-call case of the batch-embedder step: with
`len(texts) <= batch_size` it is exactly one provider call, outside any
failure handler (main.py:889-890). -/
theorem batchEmbedStep_direct (f : EmbFun) (texts : List Text) (bs : Nat)
    (h : texts.length ≤ bs) : batchEmbedStep f texts bs = .inl (f texts) := by
  rw [batchEmbedStep, if_pos h]

/-- Direct-call case of the fueled driver, for any fuel. -/
theorem batchEmbedTextsFuel_direct (f : EmbFun) (texts : List Text) (fuel bs : Nat)
    (h : texts.length ≤ bs) : batchEmbedTextsFuel f texts fuel bs = f texts := by
  cases fuel with
  | zero => rw [batchEmbedTextsFuel, batchEmbedStep_direct f texts bs h]
  | succ n => rw [batchEmbedTextsFuel, batchEmbedStep_direct f texts bs h]

/-- Direct-call case of `batch_embed_texts` (main.py:889-890). -/
theorem batchEmbedTexts_direct (f : EmbFun) (texts : List Text) (bs : Nat)
    (h : texts.length ≤ bs) : batchEmbedTexts f texts bs = f texts :=
  batchEmbedTextsFuel_direct f texts bs bs h

/-- The batch loop requests a halving restart only when `1 < batch_size`
(main.py:918). -/
theorem runBatches_halve (f : EmbFun) (bs : Nat) (bl : List (List Text))
    (h : runBatches f bs bl = .halve) : 1 < bs := by
  induction bl with
  | nil => simp [runBatches] at h
  | cons b rest ih =>
    simp only [runBatches] at h
    repeat' split at h
    all_goals first
      | assumption
      | (exact ih (by assumption))
      | simp at h

/-- A halving step happens only from a batch size above 1, and the new
batch size is exactly half the old one. -/
theorem batchEmbedStep_inr (f : EmbFun) (texts : List Text) (bs bs' : Nat)
    (h : batchEmbedStep f texts bs = .inr bs') : 1 < bs ∧ bs' = bs / 2 := by
  rw [batchEmbedStep] at h
  split at h
  · simp at h
  · split at h
    · simp at h
    · split at h
      · simp at h
      · next hh =>
        injection h with h'
        exact ⟨runBatches_halve f bs _ hh, h'.symm⟩
      · simp at h

/-- Every invocation trace starts with its own initial batch size. -/
theorem batchEmbedSizesFuel_head (f : EmbFun) (texts : List Text) (fuel bs : Nat) :
    (batchEmbedSizesFuel f texts fuel bs).head? = some bs := by
  cases fuel with
  | zero => rfl
  | succ n =>
    rw [batchEmbedSizesFuel]
    split <;> rfl

/-- Consecutive entries of the invocation trace: each re-invocation uses
exactly half the previous batch size, halving happens only from sizes above
1, and the size strictly decreases. -/
theorem batchEmbedSizesFuel_chain (f : EmbFun) (texts : List Text) :
    ∀ fuel bs, List.Chain' (fun a b => b = a / 2 ∧ 1 < a ∧ b < a)
      (batchEmbedSizesFuel f texts fuel bs) := by
  intro fuel
  induction fuel with
  | zero => intro bs; exact List.chain'_singleton _
  | succ n ih =>
    intro bs
    rw [batchEmbedSizesFuel]
    split
    · exact List.chain'_singleton _
    · next bs' hstep =>
      obtain ⟨h1, h2⟩ := batchEmbedStep_inr f texts bs bs' hstep
      refine List.chain'_cons'.mpr ⟨?_, ih bs'⟩
      intro y hy
      rw [batchEmbedSizesFuel_head] at hy
      have hy' : y = bs' := by simpa using hy.symm
      subst hy'
      exact ⟨h2, h1, by omega⟩

/-- Every entry of the invocation trace is positive when the initial batch
size is. -/
theorem batchEmbedSizesFuel_pos (f : EmbFun) (texts : List Text) :
    ∀ fuel bs, 0 < bs → ∀ s ∈ batchEmbedSizesFuel f texts fuel bs, 0 < s := by
  intro fuel
  induction fuel with
  | zero =>
    intro bs hbs s hs
    simp only [batchEmbedSizesFuel, List.mem_singleton] at hs
    omega
  | succ n ih =>
    intro bs hbs s hs
    rw [batchEmbedSizesFuel] at hs
    split at hs
    · simp only [List.mem_singleton] at hs; omega
    · next bs' hstep =>
      obtain ⟨h1, h2⟩ := batchEmbedStep_inr f texts bs bs' hstep
      rcases List.mem_cons.mp hs with h | h
      · omega
      · exact ih bs' (by omega) s h

/-- Fuel-insensitivity of the fueled driver: any fuel of at least the batch
size gives the same result, so the fuel-exhaustion branch is unreachable
from `batchEmbedTexts`. -/
theorem batchEmbedTextsFuel_congr (f : EmbFun) (texts : List Text) :
    ∀ fuel1 fuel2 bs, bs ≤ fuel1 → bs ≤ fuel2 →
      batchEmbedTextsFuel f texts fuel1 bs = batchEmbedTextsFuel f texts fuel2 bs := by
  intro fuel1
  induction fuel1 with
  | zero =>
    intro fuel2 bs h1 h2
    have hbs : bs = 0 := by omega
    subst hbs
    cases fuel2 with
    | zero => rfl
    | succ n =>
      cases hstep : batchEmbedStep f texts 0 with
      | inl r => rw [batchEmbedTextsFuel, batchEmbedTextsFuel, hstep]
      | inr b' => exact absurd (batchEmbedStep_inr f texts 0 b' hstep).1 (by omega)
  | succ n1 ih =>
    intro fuel2 bs h1 h2
    cases hstep : batchEmbedStep f texts bs with
    | inl r =>
      cases fuel2 with
      | zero => rw [batchEmbedTextsFuel, batchEmbedTextsFuel, hstep]
      | succ n2 => rw [batchEmbedTextsFuel, batchEmbedTextsFuel, hstep]
    | inr bs' =>
      obtain ⟨hb1, hb2⟩ := batchEmbedStep_inr f texts bs bs' hstep
      cases fuel2 with
      | zero => omega
      | succ n2 =>
        rw [batchEmbedTextsFuel, batchEmbedTextsFuel, hstep]
        exact ih n2 bs' (by omega) (by omega)

/-- Length of the range iteration with stride 180: `ceil((stop-cur)/180)`. -/
theorem pyRangeAux_length_180 (fuel : Nat) :
    ∀ stop cur, stop - cur ≤ fuel →
      (pyRangeAux stop 180 fuel cur).length = (stop - cur + 179) / 180 := by
  induction fuel with
  | zero =>
    intro stop cur h
    simp only [pyRangeAux, List.length_nil]
    omega
  | succ n ih =>
    intro stop cur h
    simp only [pyRangeAux]
    split
    · next hlt =>
      rw [List.length_cons, ih stop (cur + 180) (by omega)]
      omega
    · simp only [List.length_nil]
      omega

/-- Length of the range iteration with stride 350: `ceil((stop-cur)/350)`. -/
theorem pyRangeAux_length_350 (fuel : Nat) :
    ∀ stop cur, stop - cur ≤ fuel →
      (pyRangeAux stop 350 fuel cur).length = (stop - cur + 349) / 350 := by
  induction fuel with
  | zero =>
    intro stop cur h
    simp only [pyRangeAux, List.length_nil]
    omega
  | succ n ih =>
    intro stop cur h
    simp only [pyRangeAux]
    split
    · next hlt =>
      rw [List.length_cons, ih stop (cur + 350) (by omega)]
      omega
    · simp only [List.length_nil]
      omega

/-- The generic re-chunking of an oversized text (window 200, stride 180,
main.py:928) produces `ceil(len(t) / 180)` windows. -/
theorem sliceChunks_length_200 (t : Text) :
    (sliceChunks t 200 180).length = (t.length + 179) / 180 := by
  simp only [sliceChunks, pyRange, List.length_map]
  rw [if_neg (by omega)]
  simpa using pyRangeAux_length_180 t.length t.length 0 (by omega)

/-- The Clara-Core re-chunking of an oversized text (window 400, stride
350, main.py:1033) produces `ceil(len(t) / 350)` windows. -/
theorem sliceChunks_length_400 (t : Text) :
    (sliceChunks t 400 350).length = (t.length + 349) / 350 := by
  simp only [sliceChunks, pyRange, List.length_map]
  rw [if_neg (by omega)]
  simpa using pyRangeAux_length_350 t.length t.length 0 (by omega)

/-- Folding element-wise addition over vectors of one common length keeps
that length. -/
theorem foldl_vecAdd_length (vs : List Vec) :
    ∀ acc : Vec, (∀ v ∈ vs, v.length = acc.length) →
      (vs.foldl vecAdd acc).length = acc.length := by
  induction vs with
  | nil => intro acc _; rfl
  | cons v rest ih =>
    intro acc hdim
    have hv : v.length = acc.length := hdim v (List.mem_cons_self v rest)
    have hacc : (vecAdd acc v).length = acc.length := by
      simp [vecAdd, List.length_zipWith]
      omega
    rw [List.foldl_cons, ih (vecAdd acc v) ?_, hacc]
    intro w hw
    rw [hacc]
    exact hdim w (List.mem_cons_of_mem v hw)

/-- The element-wise mean of a non-empty rectangular vector list has the
common row dimension (main.py:1041-1042). -/
theorem meanVecs_length (vs : List Vec) (d : Nat) (hne : vs ≠ [])
    (hdim : ∀ v ∈ vs, v.length = d) : (meanVecs vs).length = d := by
  cases vs with
  | nil => exact absurd rfl hne
  | cons v rest =>
    have hv : v.length = d := hdim v (List.mem_cons_self v rest)
    simp only [meanVecs, List.length_map]
    rw [foldl_vecAdd_length rest v ?_, hv]
    intro w hw
    rw [hv]
    exact hdim w (List.mem_cons_of_mem v hw)

/-- A per-text Clara-Core step that succeeds returns exactly one vector:
either the single aggregated mean of the window vectors (main.py:1042-1043)
or, for a short text, the single vector of the direct singleton call. -/
theorem claraCoreEmbedText_len (base : EmbFun)
    (hbase : ∀ t vs, base [t] = Except.ok vs → vs.length = 1)
    (t : Text) (vs : List Vec) (h : claraCoreEmbedText base t = Except.ok vs) :
    vs.length = 1 := by
  unfold claraCoreEmbedText at h
  by_cases h4 : 400 < t.length
  · rw [if_pos h4] at h
    cases hb : batchEmbedTexts base (sliceChunks t 400 350) 1 with
    | ok ces =>
      rw [hb] at h
      injection h with h'
      rw [← h']
      rfl
    | error e => rw [hb] at h; exact Except.noConfusion h
  · rw [if_neg h4] at h
    rw [batchEmbedTexts_direct base [t] 1 (by simp)] at h
    exact hbase t vs h

/-- Totality of the string order used by `sorted`. -/
theorem lexLe_total (x : Text) : ∀ y : Text, lexLe x y = true ∨ lexLe y x = true := by
  induction x with
  | nil => intro y; exact Or.inl rfl
  | cons a as ih =>
    intro y
    cases y with
    | nil => exact Or.inr rfl
    | cons b bs =>
      by_cases hab : a < b
      · left; simp [lexLe, hab]
      · by_cases hba : b < a
        · right; simp [lexLe, hba]
        · rcases ih bs with h | h
          · left; simp [lexLe, hab, hba, h]
          · right; simp [lexLe, hab, hba, h]

/-- Antisymmetry of the string order used by `sorted`. -/
theorem lexLe_antisymm (x : Text) :
    ∀ y : Text, lexLe x y = true → lexLe y x = true → x = y := by
  induction x with
  | nil =>
    intro y h1 h2
    cases y with
    | nil => rfl
    | cons b bs => simp [lexLe] at h2
  | cons a as ih =>
    intro y h1 h2
    cases y with
    | nil => simp [lexLe] at h1
    | cons b bs =>
      by_cases hab : a < b
      · simp [lexLe, hab, lt_asymm hab] at h2
      · by_cases hba : b < a
        · simp [lexLe, hab, hba] at h1
        · have hab' : a = b := le_antisymm (le_of_not_lt hba) (le_of_not_lt hab)
          subst hab'
          simp only [lexLe, lt_irrefl, if_false] at h1 h2
          rw [ih bs h1 h2]

/-- Transitivity of the string order used by `sorted`. -/
theorem lexLe_trans (x : Text) :
    ∀ y z : Text, lexLe x y = true → lexLe y z = true → lexLe x z = true := by
  induction x with
  | nil => intro y z _ _; rfl
  | cons a as ih =>
    intro y z h1 h2
    cases y with
    | nil => simp [lexLe] at h1
    | cons b bs =>
      cases z with
      | nil => simp [lexLe] at h2
      | cons c cs =>
        by_cases hab : a < b
        · by_cases hbc : b < c
          · simp [lexLe, lt_trans hab hbc]
          · by_cases hcb : c < b
            · simp [lexLe, hbc, hcb] at h2
            · have hbc' : b = c := le_antisymm (le_of_not_lt hcb) (le_of_not_lt hbc)
              subst hbc'
              simp [lexLe, hab]
        · by_cases hba : b < a
          · simp [lexLe, hab, hba] at h1
          · have hab' : a = b := le_antisymm (le_of_not_lt hba) (le_of_not_lt hab)
            subst hab'
            simp only [lexLe, lt_irrefl, if_false] at h1
            by_cases hac : a < c
            · simp [lexLe, hac]
            · by_cases hca : c < a
              · simp [lexLe, hac, hca] at h2
              · have hac' : a = c := le_antisymm (le_of_not_lt hca) (le_of_not_lt hac)
                subst hac'
                simp only [lexLe, lt_irrefl, if_false] at h2 ⊢
                exact ih bs cs h1 h2

/-- Sorting is invariant under permutation of the input: `sorted` of two
reorderings of the same strings is the same list. -/
theorem sortTexts_eq_of_perm (l l' : List Text) (h : List.Perm l l') :
    sortTexts l = sortTexts l' := by
  haveI : IsTotal Text lexLeProp := ⟨lexLe_total⟩
  haveI : IsTrans Text lexLeProp := ⟨fun a b c => lexLe_trans a b c⟩
  haveI : IsAntisymm Text lexLeProp := ⟨fun a b => lexLe_antisymm a b⟩
  exact List.eq_of_perm_of_sorted
    ((List.perm_insertionSort lexLeProp l).trans
      (h.trans (List.perm_insertionSort lexLeProp l').symm))
    (List.sorted_insertionSort lexLeProp l)
    (List.sorted_insertionSort lexLeProp l')

/-- Splitting at the first separator: equal pipe-separated strings with
pipe-free heads have equal heads and equal tails. -/
theorem pipe_split (x : Text) :
    ∀ (y r s : Text), ('|' : Char) ∉ x → ('|' : Char) ∉ y →
      x ++ '|' :: r = y ++ '|' :: s → x = y ∧ r = s := by
  induction x with
  | nil =>
    intro y r s _ hy h
    cases y with
    | nil => simpa using h
    | cons b bs =>
      simp only [List.nil_append, List.cons_append] at h
      injection h with h1 h2
      rw [← h1] at hy
      simp at hy
  | cons a as ih =>
    intro y r s hx hy h
    cases y with
    | nil =>
      simp only [List.cons_append, List.nil_append] at h
      injection h with h1 h2
      rw [h1] at hx
      simp at hx
    | cons b bs =>
      simp only [List.cons_append] at h
      injection h with h1 h2
      subst h1
      have hx' : ('|' : Char) ∉ as := fun hmem => hx (List.mem_cons_of_mem a hmem)
      have hy' : ('|' : Char) ∉ bs := fun hmem => hy (List.mem_cons_of_mem a hmem)
      obtain ⟨he, ht⟩ := ih bs r s hx' hy' h2
      exact ⟨by rw [he], ht⟩

/-- Injectivity of `"|".join` on equally long lists of pipe-free strings. -/
theorem joinPipe_inj (xs : List Text) :
    ∀ ys : List Text, xs.length = ys.length →
      (∀ t ∈ xs, ('|' : Char) ∉ t) → (∀ t ∈ ys, ('|' : Char) ∉ t) →
      joinPipe xs = joinPipe ys → xs = ys := by
  induction xs with
  | nil =>
    intro ys hlen _ _ _
    cases ys with
    | nil => rfl
    | cons y ys' => simp at hlen
  | cons x xs' ih =>
    intro ys hlen hx hy h
    cases ys with
    | nil => simp at hlen
    | cons y ys' =>
      cases xs' with
      | nil =>
        cases ys' with
        | nil => simpa [joinPipe] using h
        | cons y2 ys'' => simp at hlen
      | cons x2 xs'' =>
        cases ys' with
        | nil => simp at hlen
        | cons y2 ys'' =>
          simp only [joinPipe] at h
          obtain ⟨hxy, hrest⟩ :=
            pipe_split x y (joinPipe (x2 :: xs'')) (joinPipe (y2 :: ys''))
              (hx x (List.mem_cons_self x _)) (hy y (List.mem_cons_self y _)) h
          subst hxy
          have := ih (y2 :: ys'') (by simpa using hlen)
            (fun t ht => hx t (List.mem_cons_of_mem x ht))
            (fun t ht => hy t (List.mem_cons_of_mem x ht)) hrest
          rw [this]

/-- Fingerprint entries of documents with pipe-free fields are pipe-free. -/
theorem fingerprintEntry_no_pipe (x : NbDoc) (hid : ('|' : Char) ∉ x.id)
    (hup : ('|' : Char) ∉ x.uploadedAt) : ('|' : Char) ∉ fingerprintEntry x := by
  simp only [fingerprintEntry, List.mem_append, List.mem_cons]
  rintro (h | h | h)
  · exact hid h
  · exact absurd h (by decide)
  · exact hup h

/-- A fingerprint entry pins down the id given the timestamp, and the
timestamp given the id. -/
theorem fingerprintEntry_inj (d d' : NbDoc)
    (hch : (d'.id ≠ d.id ∧ d'.uploadedAt = d.uploadedAt) ∨
           (d'.id = d.id ∧ d'.uploadedAt ≠ d.uploadedAt)) :
    fingerprintEntry d ≠ fingerprintEntry d' := by
  intro he
  unfold fingerprintEntry at he
  rcases hch with ⟨hne, hup⟩ | ⟨hid, hne⟩
  · rw [hup] at he
    exact hne (List.append_cancel_right he).symm
  · rw [hid] at he
    have := List.append_cancel_left he
    injection this with h1 h2
    exact hne h2.symm

/-- The sorted list is a permutation of the input. -/
theorem sortTexts_perm (l : List Text) : List.Perm (sortTexts l) l :=
  List.perm_insertionSort lexLeProp l

/-- Permutation invariance of the corpus fingerprint (main.py:2007-2010):
sorting makes it independent of document order. -/
theorem fingerprint_perm (docs docs' : List NbDoc) (h : List.Perm docs docs') :
    fingerprint docs = fingerprint docs' := by
  unfold fingerprint
  rw [sortTexts_eq_of_perm _ _ (h.map fingerprintEntry)]

/-- Changing one document's id (timestamp fixed) or timestamp (id fixed)
changes the fingerprint, provided ids and timestamps avoid the separator
character, as the uuid4 ids and ISO timestamps the code generates do. -/
theorem fingerprint_change (pre post : List NbDoc) (d d' : NbDoc)
    (hclean : ∀ x ∈ pre ++ d :: post, ('|' : Char) ∉ x.id ∧ ('|' : Char) ∉ x.uploadedAt)
    (hclean' : ('|' : Char) ∉ d'.id ∧ ('|' : Char) ∉ d'.uploadedAt)
    (hch : (d'.id ≠ d.id ∧ d'.uploadedAt = d.uploadedAt) ∨
           (d'.id = d.id ∧ d'.uploadedAt ≠ d.uploadedAt)) :
    fingerprint (pre ++ d :: post) ≠ fingerprint (pre ++ d' :: post) := by
  intro heq
  unfold fingerprint at heq
  have hcleanR : ∀ x ∈ pre ++ d' :: post,
      ('|' : Char) ∉ x.id ∧ ('|' : Char) ∉ x.uploadedAt := by
    intro x hx
    rcases List.mem_append.mp hx with h | h
    · exact hclean x (List.mem_append.mpr (Or.inl h))
    · rcases List.mem_cons.mp h with rfl | h
      · exact hclean'
      · exact hclean x (List.mem_append.mpr (Or.inr (List.mem_cons_of_mem d h)))
  have hpfL : ∀ t ∈ (pre ++ d :: post).map fingerprintEntry, ('|' : Char) ∉ t := by
    intro t ht
    obtain ⟨x, hx, rfl⟩ := List.mem_map.mp ht
    exact fingerprintEntry_no_pipe x (hclean x hx).1 (hclean x hx).2
  have hpfR : ∀ t ∈ (pre ++ d' :: post).map fingerprintEntry, ('|' : Char) ∉ t := by
    intro t ht
    obtain ⟨x, hx, rfl⟩ := List.mem_map.mp ht
    exact fingerprintEntry_no_pipe x (hcleanR x hx).1 (hcleanR x hx).2
  have hpermL := sortTexts_perm ((pre ++ d :: post).map fingerprintEntry)
  have hpermR := sortTexts_perm ((pre ++ d' :: post).map fingerprintEntry)
  have hsorteq : sortTexts ((pre ++ d :: post).map fingerprintEntry) =
      sortTexts ((pre ++ d' :: post).map fingerprintEntry) := by
    apply joinPipe_inj _ _ ?_ ?_ ?_ heq
    · rw [hpermL.length_eq, hpermR.length_eq]
      simp
    · intro t ht
      exact hpfL t (hpermL.subset ht)
    · intro t ht
      exact hpfR t (hpermR.subset ht)
  have hSR : List.Perm (sortTexts ((pre ++ d :: post).map fingerprintEntry))
      ((pre ++ d' :: post).map fingerprintEntry) := by
    rw [hsorteq]
    exact hpermR
  have hperm : List.Perm ((pre ++ d :: post).map fingerprintEntry)
      ((pre ++ d' :: post).map fingerprintEntry) := hpermL.symm.trans hSR
  rw [List.map_append, List.map_cons, List.map_append, List.map_cons] at hperm
  have h1 : List.Perm
      (fingerprintEntry d :: (pre.map fingerprintEntry ++ post.map fingerprintEntry))
      (fingerprintEntry d' :: (pre.map fingerprintEntry ++ post.map fingerprintEntry)) :=
    (List.perm_middle.symm.trans hperm).trans List.perm_middle
  have hm := Multiset.coe_eq_coe.mpr h1
  rw [← Multiset.cons_coe, ← Multiset.cons_coe] at hm
  exact fingerprintEntry_inj d d' hch ((Multiset.cons_inj_left _).mp hm)

/-- The fingerprint of a non-empty document set is a non-empty string
(every entry contains at least the separating colon). -/
theorem fingerprint_ne_nil (docs : List NbDoc) (h : docs ≠ []) :
    fingerprint docs ≠ [] := by
  unfold fingerprint
  have hperm := sortTexts_perm (docs.map fingerprintEntry)
  cases hs : sortTexts (docs.map fingerprintEntry) with
  | nil =>
    rw [hs] at hperm
    have hlen := hperm.length_eq
    cases docs with
    | nil => exact absurd rfl h
    | cons a as => simp at hlen
  | cons t rest =>
    have ht : t ∈ docs.map fingerprintEntry := by
      have hmem : t ∈ sortTexts (docs.map fingerprintEntry) := by
        rw [hs]
        exact List.mem_cons_self _ _
      exact (sortTexts_perm _).subset hmem
    obtain ⟨x, hx, hxe⟩ := List.mem_map.mp ht
    cases rest with
    | nil =>
      simp only [joinPipe]
      rw [← hxe]
      unfold fingerprintEntry
      simp
    | cons t2 r2 =>
      simp only [joinPipe]
      simp

/-- The no-completed-documents early return of `generate_notebook_summary`
(main.py:1996-2004): fixed answer, nothing cached, no query. -/
theorem genSummary_not_ready (nbId : Text) (docs : List NbDoc) (nb : Notebook)
    (a : String) (n : Nat) (h : completedDocs nbId docs = []) :
    generateNotebookSummary nbId docs nb a n =
      (⟨notReadyAnswer, "hybrid", false⟩, nb, false) := by
  simp [generateNotebookSummary, h]

/-- After any summary call on a notebook with completed documents, the
resulting notebook carries a cache whose fingerprint is the current one,
and the response is exactly that cache's answer/mode/context flag. -/
theorem summaryCacheHit_some (sc : Option SummaryCache) (sf : Option Text)
    (fp : Text) (c : SummaryCache)
    (h : summaryCacheHit ⟨sc, sf⟩ fp = some c) :
    sc = some c ∧ sf = some fp := by
  cases sc with
  | none => simp [summaryCacheHit] at h
  | some c0 =>
    cases sf with
    | none => simp [summaryCacheHit] at h
    | some sfp =>
      simp only [summaryCacheHit] at h
      by_cases hcond : (!sfp.isEmpty && (sfp == fp)) = true
      · rw [if_pos hcond] at h
        injection h with h'
        subst h'
        obtain ⟨-, h2⟩ := (Bool.and_eq_true _ _).mp hcond
        have : sfp = fp := beq_iff_eq.mp h2
        exact ⟨rfl, by rw [this]⟩
      · rw [if_neg hcond] at h
        exact Option.noConfusion h

/-- After any summary call on a notebook with completed documents, the
resulting notebook carries a cache whose fingerprint is the current one,
and the response is exactly that cache's answer/mode/context flag. -/
theorem genSummary_invariant (nbId : Text) (docs : List NbDoc) (nb : Notebook)
    (a : String) (n : Nat) (hne : completedDocs nbId docs ≠ []) :
    ∃ c : SummaryCache,
      (generateNotebookSummary nbId docs nb a n).2.1.summaryCache = some c ∧
      (generateNotebookSummary nbId docs nb a n).2.1.docsFingerprint =
        some (fingerprint (completedDocs nbId docs)) ∧
      (generateNotebookSummary nbId docs nb a n).1 = ⟨c.answer, c.mode, c.contextUsed⟩ := by
  have hE : (completedDocs nbId docs).isEmpty = false := by
    cases hcd : completedDocs nbId docs with
    | nil => exact absurd hcd hne
    | cons _ _ => rfl
  cases hhit : summaryCacheHit nb (fingerprint (completedDocs nbId docs)) with
  | some c =>
    obtain ⟨sc, sf⟩ := nb
    obtain ⟨h1, h2⟩ := summaryCacheHit_some sc sf _ c hhit
    subst h1
    subst h2
    refine ⟨c, ?_, ?_, ?_⟩ <;> simp [generateNotebookSummary, hE, hhit]
  | none =>
    refine ⟨⟨a, "hybrid", true, n⟩, ?_, ?_, ?_⟩ <;>
      simp [generateNotebookSummary, hE, hhit]

theorem summaryCacheHit_of (nb : Notebook) (c : SummaryCache) (fp : Text)
    (h1 : nb.summaryCache = some c) (h2 : nb.docsFingerprint = some fp)
    (hfp : fp ≠ []) : summaryCacheHit nb fp = some c := by
  obtain ⟨sc, sf⟩ := nb
  have h1' : sc = some c := h1
  have h2' : sf = some fp := h2
  subst h1'
  subst h2'
  have hE : fp.isEmpty = false := by
    cases fp with
    | nil => exact absurd rfl hfp
    | cons a l => rfl
  simp [summaryCacheHit, hE]

/-- Every record produced by the upload loop has status `processing` and
the stagger delay of its own upload index. -/
theorem uploadLoop_fields (files : List UploadFile) :
    ∀ i, ∀ r ∈ uploadLoop files i,
      r.status = DocStatus.processing ∧ r.delaySeconds = staggerDelay r.uploadIndex := by
  induction files with
  | nil => intro i r hr; simp [uploadLoop] at hr
  | cons f rest ih =>
    intro i r hr
    by_cases ha : acceptedFile f = true
    · rw [uploadLoop, if_pos ha] at hr
      rcases List.mem_cons.mp hr with rfl | hr
      · exact ⟨rfl, rfl⟩
      · exact ih (i + 1) r hr
    · rw [uploadLoop, if_neg ha] at hr
      exact ih (i + 1) r hr

/-- The running `document_count` rises by exactly the number of records the
loop creates. -/
theorem uploadDocumentCount_eq (files : List UploadFile) :
    ∀ i c, uploadDocumentCount files c = c + (uploadLoop files i).length := by
  induction files with
  | nil => intro i c; simp [uploadDocumentCount, uploadLoop]
  | cons f rest ih =>
    intro i c
    by_cases ha : acceptedFile f = true
    · rw [uploadDocumentCount, uploadLoop, if_pos ha, if_pos ha]
      rw [ih (i + 1) (c + 1), List.length_cons]
      omega
    · rw [uploadDocumentCount, uploadLoop, if_neg ha, if_neg ha]
      exact ih (i + 1) c

/-- C1 (amended): the Clara-Core embedding wrapper `embedding_func_lambda`
returns exactly one vector per input text — for an oversized text the
window vectors are averaged into one (main.py:1039-1043) — whenever the
provider returns one vector per single-text call.  The claim as stated is
false of `batch_embed_texts` itself: its batch-size-1 re-chunk fallback
appends each window's vector without aggregation (main.py:941), see
`C1_counterexample`. -/
theorem C1_theorem (base : EmbFun)
    (hbase : ∀ t vs, base [t] = Except.ok vs → vs.length = 1) :
    ∀ texts out, embeddingFuncLambdaClara base texts = Except.ok out →
      out.length = texts.length := by
  intro texts
  induction texts with
  | nil =>
    intro out h
    simp only [embeddingFuncLambdaClara] at h
    injection h with h2
    rw [← h2]
    rfl
  | cons t rest ih =>
    intro out h
    cases hc : claraCoreEmbedText base t with
    | error e =>
      simp only [embeddingFuncLambdaClara, hc] at h
      exact Except.noConfusion h
    | ok vs =>
      cases hr : embeddingFuncLambdaClara base rest with
      | error e =>
        simp only [embeddingFuncLambdaClara, hc, hr] at h
        exact Except.noConfusion h
      | ok more =>
        simp only [embeddingFuncLambdaClara, hc, hr] at h
        injection h with h2
        have hvs := claraCoreEmbedText_len base hbase t vs hc
        have hmore := ih more hr
        rw [← h2, List.length_append, hvs, hmore, List.length_cons]
        omega

/-- C1 counterexample: with a backend that rejects any batch containing a
text longer than 200 characters, the Ollama wrapper over
`batch_embed_texts` returns 6 vectors for 5 input texts: the oversized
text's two window vectors are appended individually instead of being
averaged into one. -/
theorem C1_counterexample :
    (embeddingFuncLambdaOllama exEmbBase exTexts1).toOption.map List.length = some 6 ∧
    exTexts1.length = 5 := by
  exact ⟨by decide, by decide⟩

/-- C1 witness: the amended theorem applied to a concrete well-behaved
backend and two texts. -/
theorem C1_witness :
    embeddingFuncLambdaClara exOkBase exClaraTexts = Except.ok exClaraOut ∧
    exClaraOut.length = exClaraTexts.length := by
  have h : embeddingFuncLambdaClara exOkBase exClaraTexts = Except.ok exClaraOut := rfl
  refine ⟨h, C1_theorem exOkBase ?_ exClaraTexts exClaraOut h⟩
  intro t vs hv
  simp only [exOkBase] at hv
  injection hv with h2
  rw [← h2]
  rfl

/-- C2 (amended): a query in mode `global` that raises a
context-size-class error is retried exactly once, in mode `local` with
`top_k = min(20, top_k)` (main.py:1909-1917); the outcome of that single
fallback call — success or ANY error — is final, because the fallback call
sits in no handler of its own: there is no further `naive` retry, and a
second failure propagates to the caller. -/
theorem C2_theorem (engine : QueryEngine) (rt : String) (k : Nat) (e : QueryError)
    (h1 : engine ⟨.globalQ, rt, k⟩ = Except.error e)
    (h2 : isContextSizeError e = true) :
    queryAttempts engine ⟨.globalQ, rt, k⟩ =
      [⟨.globalQ, rt, k⟩, ⟨.localQ, rt, min 20 k⟩] ∧
    queryWithFallback engine ⟨.globalQ, rt, k⟩ =
      (match engine ⟨.localQ, rt, min 20 k⟩ with
       | .ok r => .ok (r, .localQ)
       | .error e2 => .error e2) := by
  constructor
  · simp [queryAttempts, h1, h2, fallbackParam]
  · simp [queryWithFallback, h1, h2, fallbackParam]

/-- C2 counterexample: an engine that succeeds only in `naive` mode.  A
`global` query raises a context-size error, the single `local` retry
raises it again, and the whole query fails — the claimed second retry in
`naive` mode (which would have succeeded) never happens. -/
theorem C2_counterexample :
    queryWithFallback exEngine ⟨.globalQ, "Multiple Paragraphs", 60⟩ =
      Except.error .contextSize ∧
    exEngine ⟨.naiveQ, "Single Paragraph", 5⟩ = Except.ok "naive answer" := by
  exact ⟨rfl, rfl⟩

/-- C2 witness: the amended theorem applied to the concrete engine. -/
theorem C2_witness :
    queryAttempts exEngine ⟨.globalQ, "Multiple Paragraphs", 60⟩ =
      [⟨.globalQ, "Multiple Paragraphs", 60⟩,
       ⟨.localQ, "Multiple Paragraphs", min 20 60⟩] ∧
    queryWithFallback exEngine ⟨.globalQ, "Multiple Paragraphs", 60⟩ =
      (match exEngine ⟨.localQ, "Multiple Paragraphs", min 20 60⟩ with
       | .ok r => .ok (r, .localQ)
       | .error e2 => .error e2) :=
  C2_theorem exEngine "Multiple Paragraphs" 60 .contextSize rfl rfl

/-- C3 (amended): windowing a text of length L with stride W−O produces
`ceil(L / (W−O))` windows — not `ceil((L−O)/(W−O))` as claimed, see
`C3_counterexample` — for both parameter sets (200/20 generic,
400/50 local-gateway); and the element-wise mean of a non-empty
rectangular window-vector list has the common window-vector
dimensionality. -/
theorem C3_theorem (t : Text) (d : Nat) (vs : List Vec) (hne : vs ≠ [])
    (hdim : ∀ v ∈ vs, v.length = d) :
    ((sliceChunks t 200 180).length = (t.length + 179) / 180 ∧
     (sliceChunks t 400 350).length = (t.length + 349) / 350) ∧
    (meanVecs vs).length = d :=
  ⟨⟨sliceChunks_length_200 t, sliceChunks_length_400 t⟩,
   meanVecs_length vs d hne hdim⟩

/-- C3 counterexample: at L = 361 with W = 200, O = 20 the code produces 3
windows while `ceil((L − O)/(W − O))` is 2; at L = 701 with W = 400,
O = 50 the code produces 3 windows while the claimed formula gives 2. -/
theorem C3_counterexample :
    (sliceChunks (List.replicate 361 'a') 200 180).length = 3 ∧
    (361 - 20 + (200 - 20) - 1) / (200 - 20) = 2 ∧
    (sliceChunks (List.replicate 701 'b') 400 350).length = 3 ∧
    (701 - 50 + (400 - 50) - 1) / (400 - 50) = 2 := by
  exact ⟨by decide, by decide, by decide, by decide⟩

/-- C3 witness: the amended theorem applied to a concrete 250-character
text and a concrete 2×2 vector list. -/
theorem C3_witness :
    exVs ≠ [] ∧
    (sliceChunks (List.replicate 250 'a') 200 180).length = (250 + 179) / 180 ∧
    (meanVecs exVs).length = 2 := by
  refine ⟨by decide, ?_, ?_⟩
  · have h := (C3_theorem (List.replicate 250 'a') 2 exVs (by decide) (by decide)).1.1
    simpa using h
  · exact (C3_theorem (List.replicate 250 'a') 2 exVs (by decide) (by decide)).2

/-- C4 (code bug): the retry endpoint's status gate behaves as specified —
400 for `processing` and `completed`, success only from `failed`, moving
the status back to `processing` and clearing `failed_at` — but it does NOT
clear the `error` field that the failure path stores (main.py:1324): the
handler deletes only `failed_at` and the never-written keys
`error_message`/`error_details` (main.py:1809-1814), so a successfully
retried document still carries the stale error message. -/
theorem C4_theorem :
    (retryFailedDocument exBaseDoc 7 (Except.ok ())).1 = RetryOutcome.clientError ∧
    (retryFailedDocument exCompletedDoc 7 (Except.ok ())).1 = RetryOutcome.clientError ∧
    (retryFailedDocument exFailedDoc 7 (Except.ok ())).1 = RetryOutcome.success ∧
    (retryFailedDocument exFailedDoc 7 (Except.ok ())).2.status = DocStatus.processing ∧
    (retryFailedDocument exFailedDoc 7 (Except.ok ())).2.failedAt = none ∧
    (retryFailedDocument exFailedDoc 7 (Except.ok ())).2.error =
      some "Embedding failed: connection timeout" := by
  exact ⟨rfl, rfl, rfl, rfl, rfl, rfl⟩

/-- C5: for any backend behaviour, the trace of batch sizes at which
`batch_embed_texts` is (re-)invoked is a chain in which every re-invocation
uses exactly half the previous size, halving only happens from sizes above
1, the size strictly decreases, and — for a positive initial size — no
invocation ever uses batch size 0; hence the recursion terminates. -/
theorem C5_theorem (f : EmbFun) (texts : List Text) (bs : Nat) (hbs : 0 < bs) :
    List.Chain' (fun a b => b = a / 2 ∧ 1 < a ∧ b < a) (batchEmbedSizes f texts bs) ∧
    ∀ s ∈ batchEmbedSizes f texts bs, 0 < s :=
  ⟨batchEmbedSizesFuel_chain f texts bs bs,
   batchEmbedSizesFuel_pos f texts bs bs hbs⟩

/-- C5 witness: with the concrete too-large-rejecting backend and five
texts, the invocation trace is [4, 2, 1] and never reaches 0. -/
theorem C5_witness :
    batchEmbedSizes exEmbBase exTexts1 4 = [4, 2, 1] ∧
    List.Chain' (fun a b => b = a / 2 ∧ 1 < a ∧ b < a)
      (batchEmbedSizes exEmbBase exTexts1 4) ∧
    (0 : Nat) ∉ batchEmbedSizes exEmbBase exTexts1 4 := by
  refine ⟨by decide, (C5_theorem exEmbBase exTexts1 4 (by decide)).1, ?_⟩
  intro h0
  exact absurd ((C5_theorem exEmbBase exTexts1 4 (by decide)).2 0 h0) (lt_irrefl 0)

/-- C6: the corpus fingerprint is invariant under permutation of the
document list, and changes whenever a single document's id (timestamp
fixed) or uploadedAt (id fixed) changes — under the hygiene hypothesis
that ids and timestamps avoid the `|` separator, as the uuid4 ids and ISO
timestamps the code generates always do. -/
theorem C6_theorem :
    (∀ docs docs' : List NbDoc, List.Perm docs docs' →
      fingerprint docs = fingerprint docs') ∧
    (∀ (pre post : List NbDoc) (d d' : NbDoc),
      (∀ x ∈ pre ++ d :: post, ('|' : Char) ∉ x.id ∧ ('|' : Char) ∉ x.uploadedAt) →
      (('|' : Char) ∉ d'.id ∧ ('|' : Char) ∉ d'.uploadedAt) →
      ((d'.id ≠ d.id ∧ d'.uploadedAt = d.uploadedAt) ∨
        (d'.id = d.id ∧ d'.uploadedAt ≠ d.uploadedAt)) →
      fingerprint (pre ++ d :: post) ≠ fingerprint (pre ++ d' :: post)) :=
  ⟨fingerprint_perm, fingerprint_change⟩

/-- C6 witness: the theorem applied to two concrete documents swapped, and
to a concrete id change. -/
theorem C6_witness :
    fingerprint [exDocA, exDocB] = fingerprint [exDocB, exDocA] ∧
    fingerprint [exDocA, exDocB] ≠ fingerprint [exDocA, exDocB'] := by
  constructor
  · exact C6_theorem.1 [exDocA, exDocB] [exDocB, exDocA]
      (List.Perm.swap exDocB exDocA [])
  · exact C6_theorem.2 [exDocA] [] exDocB exDocB' (by decide) (by decide) (by decide)

/-- C7: with no completed documents the summary endpoint returns the fixed
"not ready" answer, stores nothing, and issues no query; with completed
documents, a second call with unchanged documents returns the first call's
answer, mode and context flag from the cache, leaves the notebook
unchanged, and issues no new summary query. -/
theorem C7_theorem (nbId : Text) (docs : List NbDoc) (nb : Notebook)
    (a1 a2 : String) (n1 n2 : Nat) :
    (completedDocs nbId docs = [] →
      generateNotebookSummary nbId docs nb a1 n1 =
        (⟨notReadyAnswer, "hybrid", false⟩, nb, false)) ∧
    (completedDocs nbId docs ≠ [] →
      generateNotebookSummary nbId docs
          (generateNotebookSummary nbId docs nb a1 n1).2.1 a2 n2 =
        ((generateNotebookSummary nbId docs nb a1 n1).1,
         (generateNotebookSummary nbId docs nb a1 n1).2.1, false)) := by
  constructor
  · intro h
    exact genSummary_not_ready nbId docs nb a1 n1 h
  · intro hne
    obtain ⟨c, hc1, hc2, hc3⟩ := genSummary_invariant nbId docs nb a1 n1 hne
    have hE : (completedDocs nbId docs).isEmpty = false := by
      cases hcd : completedDocs nbId docs with
      | nil => exact absurd hcd hne
      | cons _ _ => rfl
    have hfpne : fingerprint (completedDocs nbId docs) ≠ [] :=
      fingerprint_ne_nil _ hne
    generalize hg : generateNotebookSummary nbId docs nb a1 n1 = r1 at hc1 hc2 hc3 ⊢
    have hhit := summaryCacheHit_of r1.2.1 c
      (fingerprint (completedDocs nbId docs)) hc1 hc2 hfpne
    simp only [generateNotebookSummary, hE, Bool.false_eq_true, if_false, hhit]
    rw [hc3]

/-- C7 witness: the theorem applied to an empty corpus and to a concrete
one-document corpus called twice. -/
theorem C7_witness :
    generateNotebookSummary exNbId [] exNotebook "s1" 1 =
      (⟨notReadyAnswer, "hybrid", false⟩, exNotebook, false) ∧
    generateNotebookSummary exNbId exDocs
        (generateNotebookSummary exNbId exDocs exNotebook "s1" 1).2.1 "s2" 2 =
      ((generateNotebookSummary exNbId exDocs exNotebook "s1" 1).1,
       (generateNotebookSummary exNbId exDocs exNotebook "s1" 1).2.1, false) :=
  ⟨(C7_theorem exNbId [] exNotebook "s1" "s2" 1 2).1 rfl,
   (C7_theorem exNbId exDocs exNotebook "s1" "s2" 1 2).2 (by decide)⟩

/-- C8: every document record created by the upload loop has status
`processing` and is scheduled with stagger delay `min(i*3, 30)` for its
0-based upload index i; `document_count` rises by one per accepted file;
and the background wrapper always sleeps its delay (when positive) before
the processing — hence before any embedding call — happens. -/
theorem C8_theorem (files : List UploadFile) (nbCount : Nat) :
    (∀ r ∈ uploadLoop files 0, r.status = DocStatus.processing ∧
      r.delaySeconds = min (r.uploadIndex * 3) 30) ∧
    uploadDocumentCount files nbCount = nbCount + (uploadLoop files 0).length ∧
    (∀ dl : Nat,
      (processNotebookDocumentWithDelay dl).getLast? = some IngestEvent.processDoc ∧
      (0 < dl →
        (processNotebookDocumentWithDelay dl).head? =
          some (IngestEvent.sleepFor dl))) := by
  refine ⟨?_, uploadDocumentCount_eq files 0 nbCount, ?_⟩
  · intro r hr
    exact uploadLoop_fields files 0 r hr
  · intro dl
    constructor
    · exact List.getLast?_concat _
    · intro h
      simp [processNotebookDocumentWithDelay, h]

/-- C8 witness: three accepted files get delays 0s, 3s, 6s, all records
are `processing`, and the document count rises by 3. -/
theorem C8_witness :
    (uploadLoop exFiles 0).map (fun r => r.delaySeconds) = [0, 3, 6] ∧
    (uploadLoop exFiles 0).map (fun r => r.status) =
      [DocStatus.processing, DocStatus.processing, DocStatus.processing] ∧
    uploadDocumentCount exFiles 7 = 7 + (uploadLoop exFiles 0).length :=
  ⟨by decide, by decide, (C8_theorem exFiles 7).2.1⟩

/-- C9: when the input list is no longer than the batch size,
`batch_embed_texts` is exactly one direct provider call with no
surrounding failure handling (main.py:889-890), so a too-large rejection
of that single call propagates to the caller with no halving or
re-chunking attempted. -/
theorem C9_theorem (f : EmbFun) (texts : List Text) (bs : Nat)
    (h : texts.length ≤ bs) : batchEmbedTexts f texts bs = f texts :=
  batchEmbedTexts_direct f texts bs h

/-- C9 witness: a single oversized text at batch size 1 — the call equals
the provider call, whose too-large error therefore propagates verbatim. -/
theorem C9_witness :
    ([List.replicate 250 'a'] : List Text).length ≤ 1 ∧
    batchEmbedTexts exEmbBase [List.replicate 250 'a'] 1 =
      exEmbBase [List.replicate 250 'a'] :=
  ⟨by decide, C9_theorem exEmbBase [List.replicate 250 'a'] 1 (by decide)⟩

/-- C10: for a failed document with available content, an internal error
in the effects performed after the status flip (persisting, scheduling the
background task) makes the handler of main.py:1839-1845 reset the status
to `failed` and persist before answering 500: the error response never
leaves the document stuck in `processing`. -/
theorem C10_theorem (d : DocRecord) (now : Nat) (msg : String)
    (h1 : d.status = DocStatus.failed)
    (h2 : pyTruthyText (effectiveContent d) = true) :
    (retryFailedDocument d now (Except.error msg)).1 = RetryOutcome.serverError ∧
    (retryFailedDocument d now (Except.error msg)).2.status = DocStatus.failed := by
  constructor <;> simp [retryFailedDocument, h1, h2]

/-- C10 witness: the theorem applied to a concrete failed document whose
post-flip persistence fails. -/
theorem C10_witness :
    exFailedDoc.status = DocStatus.failed ∧
    pyTruthyText (effectiveContent exFailedDoc) = true ∧
    (retryFailedDocument exFailedDoc 9 (Except.error "disk full")).1 =
      RetryOutcome.serverError ∧
    (retryFailedDocument exFailedDoc 9 (Except.error "disk full")).2.status =
      DocStatus.failed :=
  ⟨rfl, rfl, (C10_theorem exFailedDoc 9 "disk full" rfl rfl).1,
   (C10_theorem exFailedDoc 9 "disk full" rfl rfl).2⟩
